import Mathlib

/-!
Verification of the rfc8025 geofeed validator (`src/rfc8025_validator.py`).

The development shallowly embeds the four core functions of the script:
`read_ip2location_data`, `read_geolocation_data`, `validate` and
`format_validation_error`, together with the parts of CPython's stdlib
`ipaddress.ip_network` factory (strict mode) that `validate` calls for its
first rule.  CSV decoding is external to the script's logic, so the readers
are modelled on already-split rows (`List (List String)`), which is exactly
what `csv.reader` hands to the script's own code.
-/

set_option autoImplicit false

namespace Rfc8025

/-! ### Character-level helpers (ASCII digit / hex digit classification) -/

def isDigitChar (c : Char) : Bool := '0' ≤ c && c ≤ '9'

def digitVal (c : Char) : Nat := c.toNat - '0'.toNat

def isHexChar (c : Char) : Bool :=
  isDigitChar c || ('a' ≤ c && c ≤ 'f') || ('A' ≤ c && c ≤ 'F')

def hexVal (c : Char) : Nat :=
  if isDigitChar c then digitVal c
  else if 'a' ≤ c && c ≤ 'f' then c.toNat - 'a'.toNat + 10
  else c.toNat - 'A'.toNat + 10

def decValue (l : List Char) : Nat :=
  l.foldl (fun acc c => acc * 10 + digitVal c) 0

def hexValue (l : List Char) : Nat :=
  l.foldl (fun acc c => acc * 16 + hexVal c) 0

/-- Python's `str.split(sep)` for a one-character separator: splits on every
occurrence, keeping empty pieces (`"".split(sep) == ['']`). -/
def splitOnChar (sep : Char) : List Char → List (List Char)
  | [] => [[]]
  | c :: cs =>
    match splitOnChar sep cs with
    | [] => [[]]
    | g :: gs => if c = sep then [] :: g :: gs else (c :: g) :: gs

/-! ### IPv4 address parsing

Modelled from CPython's `ipaddress._BaseV4._ip_int_from_string` /
`_parse_octet` (Python ≥ 3.9.5 semantics: an octet is 1–3 ASCII digits, no
leading zero, value ≤ 255; an address is exactly four octets joined by dots).
-/

def parseOctet (l : List Char) : Option Nat :=
  if l = [] then none
  else if ¬ l.all isDigitChar then none
  else if 3 < l.length then none
  else if l ≠ ['0'] ∧ l.head? = some '0' then none
  else if 255 < decValue l then none
  else some (decValue l)

def ipv4IntFromList (l : List Char) : Option Nat :=
  match (splitOnChar '.' l).mapM parseOctet with
  | some [a, b, c, d] => some (((a * 256 + b) * 256 + c) * 256 + d)
  | _ => none

/-! ### IPv6 address parsing

Modelled from CPython's `ipaddress._BaseV6._ip_int_from_string` /
`_parse_hextet`: groups split on `:`, at most one `::` gap, optional embedded
IPv4 tail (converted to two hex groups), each group 1–4 hex digits.
-/

def parseHextet (l : List Char) : Option Nat :=
  if ¬ l.all isHexChar then none
  else if 4 < l.length then none
  else if l = [] then none
  else some (hexValue l)

def hexDigitChar (n : Nat) : Char :=
  if n < 10 then Char.ofNat ('0'.toNat + n) else Char.ofNat ('a'.toNat + n - 10)

/-- Lowercase hex rendering of a number below `16 ^ fuel` (CPython's `'%x'`). -/
def hexReprAux : Nat → Nat → List Char
  | 0, _ => []
  | fuel + 1, n =>
    if n < 16 then [hexDigitChar n] else hexReprAux fuel (n / 16) ++ [hexDigitChar (n % 16)]

def hexRepr (n : Nat) : List Char := hexReprAux 8 n

/-- Indices `1 ≤ i ≤ len - 2` whose group is empty: candidate positions of a
`::` gap, exactly the loop in `_ip_int_from_string`. -/
def interiorEmpties (parts : List (List Char)) : List Nat :=
  (List.range parts.length).filter
    (fun i => decide (0 < i ∧ i + 1 < parts.length ∧ parts[i]? = some []))

/-- Pack `hi` leading groups, `skipped` zero groups and `lo` trailing groups
into the 128-bit value (the final accumulation loop of
`_ip_int_from_string`). -/
def assembleParts (parts : List (List Char)) (hi lo skipped : Nat) : Option Nat := do
  let hiVals ← (parts.take hi).mapM parseHextet
  let loVals ← (parts.drop (parts.length - lo)).mapM parseHextet
  let hiInt := hiVals.foldl (fun acc v => acc * 65536 + v) 0
  let base := hiInt * 65536 ^ skipped
  some (loVals.foldl (fun acc v => acc * 65536 + v) base)

/-- The IPv4-style-suffix step of `_ip_int_from_string`: when the last group
contains a `.`, it must parse as an IPv4 address and is replaced by its two
hexadecimal groups. -/
def ipv6ExpandV4 (parts0 : List (List Char)) : Option (List (List Char)) :=
  match parts0.getLast? with
  | none => none
  | some last =>
    if '.' ∈ last then
      match ipv4IntFromList last with
      | some v4 =>
          some (parts0.dropLast ++ [hexRepr (v4 / 65536 % 65536), hexRepr (v4 % 65536)])
      | none => none
    else some parts0

/-- The `::`-gap resolution and accumulation loops of `_ip_int_from_string`:
at most 9 groups, at most one interior empty group (the `::`), empty end
groups only next to a `::`, and the sides packed around the zero gap. -/
def ipv6Assemble (parts : List (List Char)) : Option Nat :=
  if 9 < parts.length then none else
  match interiorEmpties parts with
  | [] =>
    if parts.length ≠ 8 then none
    else if parts.head? = some ([] : List Char) then none
    else if parts.getLast? = some ([] : List Char) then none
    else assembleParts parts 8 0 0
  | [k] =>
    let hi0 := k
    let lo0 := parts.length - k - 1
    let headEmpty := parts.head? = some ([] : List Char)
    let lastEmpty := parts.getLast? = some ([] : List Char)
    let hi := if headEmpty then hi0 - 1 else hi0
    if headEmpty ∧ hi ≠ 0 then none else
    let lo := if lastEmpty then lo0 - 1 else lo0
    if lastEmpty ∧ lo ≠ 0 then none else
    if 8 ≤ hi + lo then none else
    assembleParts parts hi lo (8 - (hi + lo))
  | _ => none

def ipv6IntFromList (l : List Char) : Option Nat :=
  if l = [] then none else
  if (splitOnChar ':' l).length < 3 then none else
  match ipv6ExpandV4 (splitOnChar ':' l) with
  | none => none
  | some parts => ipv6Assemble parts

/-- `IPv6Address.__init__` on a string: `_split_scope_id` first (Python ≥ 3.9:
at most one `%`, and a non-empty, otherwise unconstrained scope id after it),
then `_ip_int_from_string` on the part before the `%`; the scope id does not
take part in any numeric computation. -/
def ipv6AddressInt (l : List Char) : Option Nat :=
  match splitOnChar '%' l with
  | [a] => ipv6IntFromList a
  | [a, s] => if s = [] then none else ipv6IntFromList a
  | _ => none

/-! ### Netmask parsing and the `ip_network` factory (strict mode)

Modelled from `_IPAddressBase._prefix_from_prefix_string`,
`_prefix_from_ip_string`, `_count_righthand_zero_bits`, `_make_netmask` and
the `IPv4Network` / `IPv6Network` constructors with `strict=True`, as invoked
by `ipaddress.ip_network(record["prefix"])` in `validate`.
-/

def plenFromString (maxLen : Nat) (l : List Char) : Option Nat :=
  if l = [] then none
  else if ¬ l.all isDigitChar then none
  else if maxLen < decValue l then none
  else some (decValue l)

def countRightZeroBits : Nat → Nat → Nat
  | 0, _ => 0
  | fuel + 1, n => if n % 2 = 1 then 0 else 1 + countRightZeroBits fuel (n / 2)

def plenFromIpInt (maxLen : Nat) (ip : Nat) : Option Nat :=
  let tz := countRightZeroBits maxLen ip
  let plen := maxLen - tz
  if ip / 2 ^ tz = 2 ^ plen - 1 then some plen else none

/-- `_BaseV4._make_netmask` on a string: a prefix-length digit string, else
a dotted netmask (`255.255.255.0`) or hostmask (`0.0.0.255`). -/
def makeNetmask4 (arg : List Char) : Option Nat :=
  match plenFromString 32 arg with
  | some p => some p
  | none =>
    match ipv4IntFromList arg with
    | none => none
    | some ip =>
      match plenFromIpInt 32 ip with
      | some p => some p
      | none => plenFromIpInt 32 (2 ^ 32 - 1 - ip)

/-- `_BaseV6._make_netmask` on a string: only a prefix-length digit string —
unlike IPv4 there is no fallback to an address-form netmask. -/
def makeNetmask6 (arg : List Char) : Option Nat := plenFromString 128 arg

/-- `IPv4Network(addr, strict=True)`: parse the address, resolve the optional
netmask part (default: the full length), and require the host bits to be
zero (`packed & int(netmask) == packed`). -/
def networkOk4 (addr : List Char) (mask : Option (List Char)) : Bool :=
  match ipv4IntFromList addr with
  | none => false
  | some ip =>
    match (match mask with
           | some m => makeNetmask4 m
           | none => some 32) with
    | none => false
    | some p => ip % 2 ^ (32 - p) = 0

/-- `IPv6Network(addr, strict=True)`: like `networkOk4` but the address goes
through `IPv6Address` (which strips a scope id) and the netmask must be a
prefix length; the host-bits check is on the packed integer, so the scope id
does not affect it. -/
def networkOk6 (addr : List Char) (mask : Option (List Char)) : Bool :=
  match ipv6AddressInt addr with
  | none => false
  | some ip =>
    match (match mask with
           | some m => makeNetmask6 m
           | none => some 128) with
    | none => false
    | some p => ip % 2 ^ (128 - p) = 0

/-- `ipaddress.ip_network(s)` succeeds (strict mode): at most one `/`, and the
pieces form a valid IPv4 network or a valid IPv6 network. -/
def ipNetworkOk (s : String) : Bool :=
  match splitOnChar '/' s.data with
  | [a] => networkOk4 a none || networkOk6 a none
  | [a, m] => networkOk4 a (some m) || networkOk6 a (some m)
  | _ => false

example : ipNetworkOk "192.0.2.0/24" = true := by decide
example : ipNetworkOk "192.0.2.5/24" = false := by decide
example : ipNetworkOk "192.0.2.5" = true := by decide
example : ipNetworkOk "10.0.0.0/33" = false := by decide
example : ipNetworkOk "not-an-ip" = false := by decide
example : ipNetworkOk "2001:db8::/32" = true := by decide
example : ipNetworkOk "2001:db8::1" = true := by decide
example : ipNetworkOk "2001:db8::1/32" = false := by decide
example : ipNetworkOk "192.0.2.0/255.255.255.0" = true := by decide
example : ipNetworkOk "192.0.2.0/0.0.0.255" = true := by decide
example : ipNetworkOk "::/ffff::" = false := by decide
example : ipNetworkOk "2001:db8::/ffff:ffff::" = false := by decide
example : ipNetworkOk "::/::" = false := by decide
example : ipNetworkOk "fe80::1%eth0" = true := by decide
example : ipNetworkOk "fe80::1%eth0/128" = true := by decide
example : ipNetworkOk "fe80::%eth0/64" = true := by decide
example : ipNetworkOk "fe80::1%eth0/64" = false := by decide
example : ipNetworkOk "fe80::1%" = false := by decide
example : ipNetworkOk "fe80::1%a%b" = false := by decide
example : ipNetworkOk "fe80::1.2.3.4%eth0" = true := by decide
example : ipNetworkOk "fe80::1%a.b" = true := by decide
example : ipNetworkOk "fe80::1%eth0:1" = true := by decide
example : ipNetworkOk "1.2.3.4%eth0" = false := by decide
example : ipNetworkOk "%eth0" = false := by decide
example : ipNetworkOk "2001:db8::/64%eth0" = false := by decide
example : ipNetworkOk "10.0.0.0/8" = true := by decide
example : ipNetworkOk "1:2:3:4:5:6:7:8" = true := by decide
example : ipNetworkOk "::ffff:192.0.2.0/128" = true := by decide
example : ipNetworkOk "::" = true := by decide
example : ipNetworkOk "1::2::3" = false := by decide
example : ipNetworkOk "" = false := by decide
example : ipNetworkOk "192.0.2.0/24/24" = false := by decide
example : ipNetworkOk "192.0.02.0/24" = false := by decide

/-! ### Data model

`GeoRecord` is the script's `TypedDict` of the five feed fields (the source
field `prefix` is named `pfx` here).  The ISO 3166-2 reference index
(`dict[str, set[str]]`, country code → region codes) is modelled as an
association list, preserving insertion order; only membership matters for
`set`. -/

structure GeoRecord where
  pfx : String
  country : String
  region : String
  city : String
  zip : String
deriving DecidableEq

def RefIndex := List (String × List String)

instance : DecidableEq RefIndex := by unfold RefIndex; infer_instance

/-- Python `d[k]` / `k in d` on the reference dict: first (only) binding. -/
def lookupIdx : RefIndex → String → Option (List String)
  | [], _ => none
  | (k, v) :: rest, c => if k = c then some v else lookupIdx rest c

/-- The list comprehension
`[region for _regions in iso3166_2.values() for region in _regions]`:
all regions of all countries, in iteration order. -/
def allRegions : RefIndex → List String
  | [] => []
  | (_, rs) :: rest => rs ++ allRegions rest

/-- `reg` is recorded under country `c` in the index. -/
def memIdx (iso : RefIndex) (c reg : String) : Prop :=
  ∃ s, lookupIdx iso c = some s ∧ reg ∈ s

instance (iso : RefIndex) (c reg : String) : Decidable (memIdx iso c reg) := by
  unfold memIdx; infer_instance

/-! ### The validator (`validate`, lines 73–102)

`validate` raises `ValueError(reason)` for an invalid record, returns `None`
for a valid one, and would leak a `KeyError` if the unguarded
`iso3166_2[record["country"]]` of rule 3 ever missed; the three outcomes are
the three constructors of `VResult`. -/

inductive VResult where
  | ok : VResult
  | err (reason : String) : VResult
  | keyError : VResult
deriving DecidableEq

def validate (r : GeoRecord) (iso : RefIndex) : VResult :=
  if ipNetworkOk r.pfx = false then VResult.err "Invalid prefix"
  else if r.country ≠ "" ∧ lookupIdx iso r.country = none then VResult.err "Wrong country code"
  else if r.region ≠ "" then
    if r.country ≠ "" then
      match lookupIdx iso r.country with
      | none => VResult.keyError
      | some rs =>
        if r.region ∈ rs then VResult.ok else VResult.err "Wrong region code"
    else if r.region ∈ allRegions iso then VResult.ok else VResult.err "Wrong region code"
  else VResult.ok

/-! ### The readers

`read_ip2location_data` (lines 42–48) folds
`records.setdefault(row[0], set()).add(row[2])` over the reference rows; a
row without an index 0 or 2 raises `IndexError` and aborts the whole load
(`none`).  `read_geolocation_data` (lines 64–70) yields one `GeoRecord` per
5-field row and raises `ValueError` on the first row of any other width; the
pair returned here is (records yielded so far, optional fatal message). -/

def setAdd (s : List String) (x : String) : List String :=
  if x ∈ s then s else s ++ [x]

def setdefaultAdd : RefIndex → String → String → RefIndex
  | [], c, reg => [(c, setAdd [] reg)]
  | (k, v) :: rest, c, reg =>
    if k = c then (k, setAdd v reg) :: rest else (k, v) :: setdefaultAdd rest c reg

def readIsoRows : RefIndex → List (List String) → Option RefIndex
  | acc, [] => some acc
  | acc, row :: rest =>
    match row[0]?, row[2]? with
    | some c, some reg => readIsoRows (setdefaultAdd acc c reg) rest
    | _, _ => none

def read_ip2location_data (rows : List (List String)) : Option RefIndex :=
  readIsoRows [] rows

def read_geolocation_data : List (List String) → List GeoRecord × Option String
  | [] => ([], none)
  | row :: rest =>
    match row with
    | [p, c, reg, ci, z] =>
      let out := read_geolocation_data rest
      (⟨p, c, reg, ci, z⟩ :: out.1, out.2)
    | _ => ([], some ("Malformatted record: " ++ String.intercalate "," row))

/-! ### The formatter (`format_validation_error`, lines 105–124) -/

def format_validation_error (r : GeoRecord) (error : String) : String :=
  error ++ ": " ++ r.pfx ++ "," ++ r.country ++ "," ++ r.region ++ "," ++ r.city ++ "," ++ r.zip

/-! ### State-threaded validator

`validate` only reads its record and the index.  To state that as a frame
property, `validateS` re-expresses the same control flow with every read of
the record or the dict going through an explicit state-passing primitive, so
that the final state is part of the result. -/

structure PyState where
  record : GeoRecord
  idx : RefIndex
deriving DecidableEq

def readPfx (s : PyState) : String × PyState := (s.record.pfx, s)

def readCountry (s : PyState) : String × PyState := (s.record.country, s)

def readRegion (s : PyState) : String × PyState := (s.record.region, s)

def dictGet (s : PyState) (k : String) : Option (List String) × PyState :=
  (lookupIdx s.idx k, s)

def dictValuesFlat (s : PyState) : List String × PyState := (allRegions s.idx, s)

def regionCheckS (s0 : PyState) : VResult × PyState :=
  let (reg, s1) := readRegion s0
  if reg ≠ "" then
    let (c, s2) := readCountry s1
    if c ≠ "" then
      let (v, s3) := dictGet s2 c
      match v with
      | none => (VResult.keyError, s3)
      | some rs =>
        if reg ∈ rs then (VResult.ok, s3) else (VResult.err "Wrong region code", s3)
    else
      let (rs, s3) := dictValuesFlat s2
      if reg ∈ rs then (VResult.ok, s3) else (VResult.err "Wrong region code", s3)
  else (VResult.ok, s1)

def validateS (s0 : PyState) : VResult × PyState :=
  let (p, s1) := readPfx s0
  if ipNetworkOk p = false then (VResult.err "Invalid prefix", s1)
  else
    let (c, s2) := readCountry s1
    if c ≠ "" then
      let (v, s3) := dictGet s2 c
      match v with
      | none => (VResult.err "Wrong country code", s3)
      | some _ => regionCheckS s3
    else regionCheckS s2

example :
    validate ⟨"198.51.100.0/24", "FR", "75", "Paris", "75000"⟩ [("FR", ["75"])] =
      VResult.ok := by decide
example :
    validate ⟨"198.51.100.0/24", "FR", "99", "Paris", "75000"⟩ [("FR", ["75"])] =
      VResult.err "Wrong region code" := by decide
example :
    validate ⟨"bad", "", "", "", ""⟩ [("FR", ["75"])] = VResult.err "Invalid prefix" := by
  decide
example :
    validate ⟨"192.0.2.0/24", "", "CA", "", ""⟩ [("US", ["CA", "NY"])] = VResult.ok := by
  decide
example :
    validate ⟨"192.0.2.0/24", "ZZ", "CA", "", ""⟩ [("US", ["CA", "NY"])] =
      VResult.err "Wrong country code" := by decide
example :
    read_ip2location_data [["US", "x", "CA"], ["US", "y", "NY"], ["FR", "z", "75"]] =
      some [("US", ["CA", "NY"]), ("FR", ["75"])] := by decide
example : read_ip2location_data [["US", "x", "CA"], ["a", "b"]] = none := by decide
example :
    read_geolocation_data [["p", "c", "r", "ci", "z"], ["a", "b"]] =
      ([⟨"p", "c", "r", "ci", "z"⟩], some "Malformatted record: a,b") := by decide
example :
    format_validation_error ⟨"bad", "US", "", "X", "00000"⟩ "Invalid prefix" =
      "Invalid prefix: bad,US,,X,00000" := by decide

/-! ### Helper lemmas -/

theorem splitOnChar_of_not_mem (sep : Char) (l : List Char) (h : sep ∉ l) :
    splitOnChar sep l = [l] := by
  induction l with
  | nil => rfl
  | cons c cs ih =>
    have hc : ¬ c = sep := fun hh => h (hh ▸ List.mem_cons_self c cs)
    have hcs : sep ∉ cs := fun hh => h (List.mem_cons_of_mem _ hh)
    simp [splitOnChar, ih hcs, hc]

theorem splitOnChar_ne_nil (sep : Char) (l : List Char) : splitOnChar sep l ≠ [] := by
  cases l with
  | nil => simp [splitOnChar]
  | cons c cs =>
    rcases h : splitOnChar sep cs with _ | ⟨g, gs⟩
    · simp [splitOnChar, h]
    · by_cases hc : c = sep <;> simp [splitOnChar, h, hc]

theorem exists_part_of_mem (sep c : Char) (l : List Char) (hc : c ∈ l) (hne : c ≠ sep) :
    ∃ g ∈ splitOnChar sep l, c ∈ g := by
  induction l with
  | nil => cases hc
  | cons d ds ih =>
    rcases hsp : splitOnChar sep ds with _ | ⟨g0, gs⟩
    · exact absurd hsp (splitOnChar_ne_nil sep ds)
    rcases List.mem_cons.mp hc with rfl | hmem
    · refine ⟨c :: g0, ?_, List.mem_cons_self _ _⟩
      rw [show splitOnChar sep (c :: ds) = (c :: g0) :: gs from by
        simp [splitOnChar, hsp, hne]]
      exact List.mem_cons_self _ _
    · obtain ⟨g, hg, hcg⟩ := ih hmem
      rw [hsp] at hg
      by_cases hd : d = sep
      · refine ⟨g, ?_, hcg⟩
        rw [show splitOnChar sep (d :: ds) = [] :: g0 :: gs from by
          simp [splitOnChar, hsp, hd]]
        exact List.mem_cons_of_mem _ hg
      · rcases List.mem_cons.mp hg with rfl | hgs
        · refine ⟨d :: g, ?_, List.mem_cons_of_mem _ hcg⟩
          rw [show splitOnChar sep (d :: ds) = (d :: g) :: gs from by
            simp [splitOnChar, hsp, hd]]
          exact List.mem_cons_self _ _
        · refine ⟨g, ?_, hcg⟩
          rw [show splitOnChar sep (d :: ds) = (d :: g0) :: gs from by
            simp [splitOnChar, hsp, hd]]
          exact List.mem_cons_of_mem _ hgs

theorem mapM_none_of_mem {α β : Type} (f : α → Option β) (xs : List α) (x : α)
    (hx : x ∈ xs) (hf : f x = none) : xs.mapM f = none := by
  induction xs with
  | nil => cases hx
  | cons y ys ih =>
    rw [List.mapM_cons]
    rcases List.mem_cons.mp hx with rfl | hmem
    · rw [hf]
      rfl
    · rcases hy : f y with _ | b
      · rfl
      · rw [ih hmem]
        rfl

theorem parseOctet_none_of_percent (g : List Char) (h : '%' ∈ g) : parseOctet g = none := by
  have hall : ¬ (g.all isDigitChar = true) := by
    intro hh
    exact absurd (List.all_eq_true.mp hh '%' h) (by decide)
  unfold parseOctet
  by_cases hnil : g = []
  · rw [if_pos hnil]
  · rw [if_neg hnil, if_pos hall]

theorem parseHextet_none_of_percent (g : List Char) (h : '%' ∈ g) : parseHextet g = none := by
  have hall : ¬ (g.all isHexChar = true) := by
    intro hh
    exact absurd (List.all_eq_true.mp hh '%' h) (by decide)
  unfold parseHextet
  rw [if_pos hall]

theorem ipv4IntFromList_none_of_percent (l : List Char) (h : '%' ∈ l) :
    ipv4IntFromList l = none := by
  obtain ⟨g, hg, hpg⟩ := exists_part_of_mem '.' '%' l h (by decide)
  unfold ipv4IntFromList
  rw [mapM_none_of_mem parseOctet _ g hg (parseOctet_none_of_percent g hpg)]

theorem assembleParts_none_of_take (parts : List (List Char)) (hi lo sk : Nat)
    (h : (parts.take hi).mapM parseHextet = none) :
    assembleParts parts hi lo sk = none := by
  unfold assembleParts
  rw [h]
  rfl

theorem assembleParts_none_of_drop (parts : List (List Char)) (hi lo sk : Nat)
    (h : (parts.drop (parts.length - lo)).mapM parseHextet = none) :
    assembleParts parts hi lo sk = none := by
  unfold assembleParts
  rcases h1 : (parts.take hi).mapM parseHextet with _ | v
  · rfl
  · rw [h]
    rfl

theorem assembleParts_cover_none (parts : List (List Char)) (g : List Char)
    (j hi lo sk : Nat) (hjq : parts[j]? = some g)
    (hcov : j < hi ∨ parts.length - lo ≤ j) (hhex : parseHextet g = none) :
    assembleParts parts hi lo sk = none := by
  rcases hcov with hlt | hge
  · apply assembleParts_none_of_take
    apply mapM_none_of_mem parseHextet _ g _ hhex
    exact List.getElem?_mem (by rw [List.getElem?_take_of_lt hlt]; exact hjq)
  · apply assembleParts_none_of_drop
    apply mapM_none_of_mem parseHextet _ g _ hhex
    refine List.getElem?_mem (n := j - (parts.length - lo)) ?_
    rw [List.getElem?_drop]
    rw [show parts.length - lo + (j - (parts.length - lo)) = j from by omega]
    exact hjq

theorem ipv6Assemble_none_of_percent (parts : List (List Char)) (g : List Char)
    (hg : g ∈ parts) (hp : '%' ∈ g) : ipv6Assemble parts = none := by
  have hgne : g ≠ [] := List.ne_nil_of_mem hp
  have hhex : parseHextet g = none := parseHextet_none_of_percent g hp
  obtain ⟨j, hj, hjg⟩ := List.getElem_of_mem hg
  have hjq : parts[j]? = some g := by rw [List.getElem?_eq_getElem hj, hjg]
  unfold ipv6Assemble
  by_cases h9 : 9 < parts.length
  · rw [if_pos h9]
  rw [if_neg h9]
  rcases hie : interiorEmpties parts with _ | ⟨k, _ | ⟨k2, ks⟩⟩
  · -- no interior empty group: all 8 groups are parsed
    simp only [hie]
    by_cases h8 : parts.length ≠ 8
    · rw [if_pos h8]
    rw [if_neg h8]
    have h8' : parts.length = 8 := not_not.mp h8
    by_cases hH : parts.head? = some ([] : List Char)
    · rw [if_pos hH]
    rw [if_neg hH]
    by_cases hL : parts.getLast? = some ([] : List Char)
    · rw [if_pos hL]
    rw [if_neg hL]
    refine assembleParts_cover_none parts g j _ _ _ hjq ?_ hhex
    left
    omega
  · -- one interior empty group at k: the groups outside the gap are parsed
    have hkmem : k ∈ interiorEmpties parts := by rw [hie]; exact List.mem_singleton_self k
    unfold interiorEmpties at hkmem
    obtain ⟨hk0, hk1, hkE⟩ := of_decide_eq_true (List.mem_filter.mp hkmem).2
    have hjk : j ≠ k := by
      intro hjk'
      rw [hjk', hkE] at hjq
      exact hgne (Option.some.inj hjq).symm
    simp only [hie]
    by_cases hH : parts.head? = some ([] : List Char) <;>
      by_cases hL : parts.getLast? = some ([] : List Char)
    · -- head and last both empty
      have hj0 : j ≠ 0 := by
        intro hj0'
        have h0 : parts[0]? = some ([] : List Char) := by
          rw [← List.head?_eq_getElem?]; exact hH
        rw [hj0', h0] at hjq
        exact hgne (Option.some.inj hjq).symm
      have hjn1 : j ≠ parts.length - 1 := by
        intro hj1'
        have hlast : parts[parts.length - 1]? = some ([] : List Char) := by
          rw [← List.getLast?_eq_getElem?]; exact hL
        rw [hj1', hlast] at hjq
        exact hgne (Option.some.inj hjq).symm
      rw [if_pos hH, if_pos hL]
      by_cases hx1 : k - 1 = 0
      · rw [if_neg (fun hc => hc.2 hx1)]
        by_cases hx2 : parts.length - k - 1 - 1 = 0
        · rw [if_neg (fun hc => hc.2 hx2)]
          by_cases hx3 : 8 ≤ k - 1 + (parts.length - k - 1 - 1)
          · rw [if_pos hx3]
          rw [if_neg hx3]
          refine assembleParts_cover_none parts g j _ _ _ hjq ?_ hhex
          omega
        · rw [if_pos (And.intro hL hx2)]
      · rw [if_pos (And.intro hH hx1)]
    · -- head empty, last not
      have hj0 : j ≠ 0 := by
        intro hj0'
        have h0 : parts[0]? = some ([] : List Char) := by
          rw [← List.head?_eq_getElem?]; exact hH
        rw [hj0', h0] at hjq
        exact hgne (Option.some.inj hjq).symm
      rw [if_pos hH, if_neg hL]
      by_cases hx1 : k - 1 = 0
      · rw [if_neg (fun hc => hc.2 hx1), if_neg (fun hc => hL hc.1)]
        by_cases hx3 : 8 ≤ k - 1 + (parts.length - k - 1)
        · rw [if_pos hx3]
        rw [if_neg hx3]
        refine assembleParts_cover_none parts g j _ _ _ hjq ?_ hhex
        omega
      · rw [if_pos (And.intro hH hx1)]
    · -- last empty, head not
      have hjn1 : j ≠ parts.length - 1 := by
        intro hj1'
        have hlast : parts[parts.length - 1]? = some ([] : List Char) := by
          rw [← List.getLast?_eq_getElem?]; exact hL
        rw [hj1', hlast] at hjq
        exact hgne (Option.some.inj hjq).symm
      rw [if_neg hH, if_pos hL, if_neg (fun hc => hH hc.1)]
      by_cases hx2 : parts.length - k - 1 - 1 = 0
      · rw [if_neg (fun hc => hc.2 hx2)]
        by_cases hx3 : 8 ≤ k + (parts.length - k - 1 - 1)
        · rw [if_pos hx3]
        rw [if_neg hx3]
        refine assembleParts_cover_none parts g j _ _ _ hjq ?_ hhex
        omega
      · rw [if_pos (And.intro hL hx2)]
    · -- neither end empty
      rw [if_neg hH, if_neg hL, if_neg (fun hc => hH hc.1), if_neg (fun hc => hL hc.1)]
      by_cases hx3 : 8 ≤ k + (parts.length - k - 1)
      · rw [if_pos hx3]
      rw [if_neg hx3]
      refine assembleParts_cover_none parts g j _ _ _ hjq ?_ hhex
      omega
  · simp only [hie]

theorem mem_ipv6ExpandV4 (parts0 parts : List (List Char)) (g : List Char)
    (hg : g ∈ parts0) (hp : '%' ∈ g) (h : ipv6ExpandV4 parts0 = some parts) :
    g ∈ parts := by
  unfold ipv6ExpandV4 at h
  split at h
  · exact Option.noConfusion h
  rename_i last hlast
  have hne : parts0 ≠ [] := by
    intro h0
    rw [h0] at hlast
    exact Option.noConfusion hlast
  by_cases hdot : '.' ∈ last
  · rw [if_pos hdot] at h
    split at h
    · rename_i v4 hv4
      obtain rfl := Option.some.inj h
      have hgl : g ≠ last := by
        rintro rfl
        rw [ipv4IntFromList_none_of_percent g hp] at hv4
        exact Option.noConfusion hv4
      have hgetlast : parts0.getLast hne = last := by
        have hh := List.getLast?_eq_getLast parts0 hne
        rw [hlast] at hh
        exact (Option.some.inj hh).symm
      have hsplit := List.dropLast_concat_getLast hne
      rw [hgetlast] at hsplit
      rw [← hsplit] at hg
      rcases List.mem_append.mp hg with hd | hl'
      · exact List.mem_append_left _ hd
      · rw [List.mem_singleton] at hl'
        exact absurd hl' hgl
    · exact Option.noConfusion h
  · rw [if_neg hdot] at h
    obtain rfl := Option.some.inj h
    exact hg

theorem ipv6IntFromList_none_of_percent (l : List Char) (hl : '%' ∈ l) :
    ipv6IntFromList l = none := by
  have hnil : l ≠ [] := List.ne_nil_of_mem hl
  obtain ⟨g, hgmem, hgp⟩ := exists_part_of_mem ':' '%' l hl (by decide)
  unfold ipv6IntFromList
  rw [if_neg hnil]
  by_cases h3 : (splitOnChar ':' l).length < 3
  · rw [if_pos h3]
  rw [if_neg h3]
  split
  · rfl
  rename_i parts hex
  exact ipv6Assemble_none_of_percent parts g
    (mem_ipv6ExpandV4 (splitOnChar ':' l) parts g hgmem hgp hex) hgp

theorem ipv6AddressInt_of_some (l : List Char) (ip : Nat)
    (h : ipv6IntFromList l = some ip) : ipv6AddressInt l = some ip := by
  have hp : '%' ∉ l := by
    intro hp
    rw [ipv6IntFromList_none_of_percent l hp] at h
    exact Option.noConfusion h
  unfold ipv6AddressInt
  rw [splitOnChar_of_not_mem '%' l hp]
  exact h

theorem validate_prefix_bad (r : GeoRecord) (iso : RefIndex) (h : ipNetworkOk r.pfx = false) :
    validate r iso = VResult.err "Invalid prefix" := by
  simp [validate, h]

theorem validate_prefix_good (r : GeoRecord) (iso : RefIndex) (h : ipNetworkOk r.pfx = true) :
    validate r iso ≠ VResult.err "Invalid prefix" := by
  unfold validate
  rw [h]
  by_cases h2 : r.country ≠ "" ∧ lookupIdx iso r.country = none
  · simp [h2]
  by_cases h3 : r.region ≠ ""
  · by_cases h4 : r.country ≠ ""
    · rcases hl : lookupIdx iso r.country with _ | rs
      · simp [h2, h3, h4, hl]
      · by_cases h5 : r.region ∈ rs <;> simp [h2, h3, h4, hl, h5]
    · by_cases h5 : r.region ∈ allRegions iso <;> simp [h2, h3, h4, h5]
  · simp [h2, h3]

theorem validate_err_taxonomy (r : GeoRecord) (iso : RefIndex) (reason : String)
    (h : validate r iso = VResult.err reason) :
    reason = "Invalid prefix" ∨ reason = "Wrong country code" ∨ reason = "Wrong region code" := by
  unfold validate at h
  by_cases h1 : ipNetworkOk r.pfx = false
  · simp [h1] at h; tauto
  rw [if_neg h1] at h
  by_cases h2 : r.country ≠ "" ∧ lookupIdx iso r.country = none
  · simp [h2] at h; tauto
  rw [if_neg h2] at h
  by_cases h3 : r.region ≠ ""
  · rw [if_pos h3] at h
    by_cases h4 : r.country ≠ ""
    · rw [if_pos h4] at h
      rcases hl : lookupIdx iso r.country with _ | rs <;> rw [hl] at h
      · simp at h
      · by_cases h5 : r.region ∈ rs
        · simp [h5] at h
        · simp [h5] at h
          tauto
    · rw [if_neg h4] at h
      by_cases h5 : r.region ∈ allRegions iso
      · simp [h5] at h
      · simp [h5] at h
        tauto
  · rw [if_neg h3] at h
    simp at h

theorem mem_allRegions_of_lookup (iso : RefIndex) (c : String) (rs : List String) (x : String)
    (h : lookupIdx iso c = some rs) (hx : x ∈ rs) : x ∈ allRegions iso := by
  induction iso with
  | nil => simp [lookupIdx] at h
  | cons p rest ih =>
    obtain ⟨k, v⟩ := p
    by_cases hk : k = c
    · rw [lookupIdx, if_pos hk] at h
      obtain rfl : v = rs := Option.some.inj h
      exact List.mem_append.mpr (Or.inl hx)
    · rw [lookupIdx, if_neg hk] at h
      exact List.mem_append.mpr (Or.inr (ih h))

/-- Claim C9: when the record's country is non-empty and present in the index
(rule 2 passed) and its region is non-empty, the unguarded dict lookup of
rule 3 cannot raise `KeyError`: `validate` never reaches the `keyError`
outcome under this precondition. -/
theorem rule3_lookup_safe (r : GeoRecord) (iso : RefIndex)
    (hc : r.country ≠ "") (hk : lookupIdx iso r.country ≠ none) (hr : r.region ≠ "") :
    validate r iso ≠ VResult.keyError := by
  unfold validate
  by_cases h1 : ipNetworkOk r.pfx = false
  · simp [h1]
  rcases hl : lookupIdx iso r.country with _ | rs
  · exact absurd hl hk
  · have h2 : ¬ (r.country ≠ "" ∧ lookupIdx iso r.country = none) := by
      rintro ⟨-, hn⟩; rw [hl] at hn; exact Option.noConfusion hn
    by_cases h5 : r.region ∈ rs <;> simp [h1, h2, hr, hc, hl, h5]

theorem rule3_lookup_safe_witness :
    validate ⟨"192.0.2.0/24", "US", "CA", "", ""⟩ [("US", ["CA"])] ≠ VResult.keyError :=
  rule3_lookup_safe ⟨"192.0.2.0/24", "US", "CA", "", ""⟩ [("US", ["CA"])]
    (by decide) (by decide) (by decide)

/-- Claim C8: `validate` only reads its inputs: threading the record and the
index through every primitive access, the final state equals the initial one,
whatever the outcome, and the outcome is that of `validate`. -/
theorem validate_readonly (r : GeoRecord) (iso : RefIndex) :
    validateS ⟨r, iso⟩ = (validate r iso, ⟨r, iso⟩) := by
  unfold validateS regionCheckS readPfx readCountry readRegion dictGet dictValuesFlat validate
  by_cases h1 : ipNetworkOk r.pfx = false
  · simp [h1]
  · by_cases hc : r.country ≠ ""
    · rcases hl : lookupIdx iso r.country with _ | rs
      · simp [h1, hc, hl]
      · by_cases hr : r.region ≠ ""
        · by_cases hm : r.region ∈ rs <;> simp [h1, hc, hl, hr, hm]
        · simp [h1, hc, hl, hr]
    · by_cases hr : r.region ≠ ""
      · by_cases hm : r.region ∈ allRegions iso <;> simp [h1, hc, hr, hm]
      · simp [h1, hc, hr]

/-- Claim C10: a bare IP address with no `/` part is accepted by rule 1:
`ip_network` treats it as a single-address network of full length, whose host
bits are trivially zero, so `validate` never reports "Invalid prefix" for it. -/
theorem bare_address_accepted (r : GeoRecord) (iso : RefIndex)
    (hslash : '/' ∉ r.pfx.data)
    (hparse : ipv4IntFromList r.pfx.data ≠ none ∨ ipv6IntFromList r.pfx.data ≠ none) :
    validate r iso ≠ VResult.err "Invalid prefix" := by
  have hok : ipNetworkOk r.pfx = true := by
    unfold ipNetworkOk
    rw [splitOnChar_of_not_mem _ _ hslash]
    rcases hparse with h | h
    · rcases h4 : ipv4IntFromList r.pfx.data with _ | ip
      · exact absurd h4 h
      · simp [networkOk4, h4, Nat.mod_one]
    · rcases h6 : ipv6IntFromList r.pfx.data with _ | ip
      · exact absurd h6 h
      · simp [networkOk6, ipv6AddressInt_of_some r.pfx.data ip h6, Nat.mod_one]
  exact validate_prefix_good r iso hok

theorem bare_address_accepted_witness :
    validate ⟨"2001:db8::1", "", "", "", ""⟩ [] ≠ VResult.err "Invalid prefix" :=
  bare_address_accepted ⟨"2001:db8::1", "", "", "", ""⟩ []
    (by decide) (Or.inr (by decide))

/-- Claim C2 (as stated) is false on the code: `"192.0.2.5"` is a bare
address, not an `address/length` CIDR form, yet the validator accepts it
(Python's `ip_network` reads it as a /32 network), so it does not produce
"Invalid prefix". -/
theorem bare_address_cex :
    ('/' ∉ "192.0.2.5".data) ∧
    validate ⟨"192.0.2.5", "", "", "", ""⟩ [] = VResult.ok := by
  exact ⟨by decide, by decide⟩

/-- Claim C2 (amended): rule 1 fails with "Invalid prefix" exactly when the
string is not accepted by strict `ip_network` parsing, which rejects
non-addresses, nonzero host bits and out-of-range lengths but accepts a bare
address as a full-length network. -/
theorem invalid_prefix_iff (r : GeoRecord) (iso : RefIndex) :
    (validate r iso = VResult.err "Invalid prefix" ↔ ipNetworkOk r.pfx = false) ∧
    ipNetworkOk "not-an-ip" = false ∧
    ipNetworkOk "192.0.2.5/24" = false ∧
    ipNetworkOk "10.0.0.0/33" = false ∧
    ipNetworkOk "192.0.2.0/24" = true ∧
    ipNetworkOk "192.0.2.5" = true := by
  refine ⟨⟨fun h => ?_, fun h => validate_prefix_bad r iso h⟩,
    by decide, by decide, by decide, by decide, by decide⟩
  by_cases hip : ipNetworkOk r.pfx = false
  · exact hip
  · have : ipNetworkOk r.pfx = true := by
      cases hv : ipNetworkOk r.pfx
      · exact absurd hv hip
      · rfl
    exact absurd h (validate_prefix_good r iso this)

/-- Claim C7: the formatter renders one line `"<reason>: <fields joined by
commas>"`, fields verbatim (empty fields render as nothing between commas);
on the spec's example it yields exactly "Invalid prefix: bad,US,,X,00000". -/
theorem formatter_line :
    (∀ (r : GeoRecord) (e : String),
      format_validation_error r e =
        e ++ ": " ++ String.intercalate "," [r.pfx, r.country, r.region, r.city, r.zip]) ∧
    format_validation_error ⟨"bad", "US", "", "X", "00000"⟩ "Invalid prefix" =
      "Invalid prefix: bad,US,,X,00000" := by
  constructor
  · intro r e
    show _ = e ++ ": " ++ (r.pfx ++ "," ++ r.country ++ "," ++ r.region ++ "," ++ r.city
      ++ "," ++ r.zip)
    simp [format_validation_error, String.append_assoc]
  · decide

/-- Claim C1: rules run in the fixed order prefix → country → region with
short-circuit: an invalid-prefix record gets "Invalid prefix" whatever its
country and region are; any failure carries exactly one reason from the fixed
taxonomy; and a record passing all applicable rules (e.g. empty country and
empty region) is valid. -/
theorem validate_rule_order (r : GeoRecord) (iso : RefIndex) :
    (ipNetworkOk r.pfx = false →
      validate r iso = VResult.err "Invalid prefix" ∧
      ∀ c reg, validate { r with country := c, region := reg } iso =
        VResult.err "Invalid prefix") ∧
    (∀ reason, validate r iso = VResult.err reason →
      reason = "Invalid prefix" ∨ reason = "Wrong country code" ∨
        reason = "Wrong region code") ∧
    (ipNetworkOk r.pfx = true →
      (r.country = "" ∨ (lookupIdx iso r.country).isSome) →
      (r.region = "" ∨ (r.country = "" ∧ r.region ∈ allRegions iso) ∨
        (∃ rs, lookupIdx iso r.country = some rs ∧ r.region ∈ rs)) →
      validate r iso = VResult.ok) := by
  refine ⟨fun h => ⟨validate_prefix_bad r iso h, fun c reg => validate_prefix_bad _ iso h⟩,
    fun reason h => validate_err_taxonomy r iso reason h, fun hip hcty hreg => ?_⟩
  unfold validate
  rw [hip]
  simp only [if_neg (by simp : ¬ (true = false))]
  by_cases hc : r.country = ""
  · have h2 : ¬ (r.country ≠ "" ∧ lookupIdx iso r.country = none) := by
      rintro ⟨hne, -⟩; exact hne hc
    rw [if_neg h2]
    by_cases hr : r.region ≠ ""
    · rw [if_pos hr, if_neg (by simp [hc] : ¬ r.country ≠ "")]
      rcases hreg with h | ⟨-, h⟩ | ⟨rs, hrs, hmem⟩
      · exact absurd h hr
      · rw [if_pos h]
      · rw [if_pos (mem_allRegions_of_lookup iso r.country rs r.region hrs hmem)]
    · rw [if_neg hr]
  · rcases hcty with h | hsome
    · exact absurd h hc
    · rcases hl : lookupIdx iso r.country with _ | rs
      · rw [hl] at hsome; exact absurd hsome (by simp)
      · have h2 : ¬ (r.country ≠ "" ∧ (some rs : Option (List String)) = none) := by
          rintro ⟨-, hn⟩; exact Option.noConfusion hn
        rw [if_neg h2]
        by_cases hr : r.region ≠ ""
        · rcases hreg with h | ⟨h, -⟩ | ⟨rs', hrs', hmem⟩
          · exact absurd h hr
          · exact absurd h hc
          · rw [hl] at hrs'
            obtain rfl : rs = rs' := Option.some.inj hrs'
            simp [hr, hc, hmem]
        · rw [if_neg hr]

theorem validate_rule_order_witness :
    validate ⟨"not-an-ip", "US", "CA", "", ""⟩ [("US", ["CA"])] =
      VResult.err "Invalid prefix" ∧
    validate ⟨"192.0.2.0/24", "", "", "", ""⟩ [] = VResult.ok :=
  ⟨((validate_rule_order ⟨"not-an-ip", "US", "CA", "", ""⟩ [("US", ["CA"])]).1 (by decide)).1,
   (validate_rule_order ⟨"192.0.2.0/24", "", "", "", ""⟩ []).2.2 (by decide)
     (Or.inl rfl) (Or.inl rfl)⟩

/-- Claim C3: with a valid prefix, a non-empty country fails with
"Wrong country code" exactly when it is not a key of the index
(case-sensitive, exact), and an empty country skips rule 2 entirely,
proceeding to the region rule. -/
theorem country_rule (r : GeoRecord) (iso : RefIndex) (hip : ipNetworkOk r.pfx = true) :
    (r.country ≠ "" →
      (validate r iso = VResult.err "Wrong country code" ↔
        lookupIdx iso r.country = none)) ∧
    (r.country = "" →
      validate r iso ≠ VResult.err "Wrong country code" ∧
      (r.region ≠ "" → (validate r iso = VResult.ok ↔ r.region ∈ allRegions iso)) ∧
      (r.region = "" → validate r iso = VResult.ok)) := by
  unfold validate
  rw [hip]
  simp only [if_neg (by simp : ¬ (true = false))]
  constructor
  · intro hc
    rcases hl : lookupIdx iso r.country with _ | rs
    · simp [hc, hl]
    · have h2 : ¬ (r.country ≠ "" ∧ (some rs : Option (List String)) = none) := by
        rintro ⟨-, hn⟩; exact Option.noConfusion hn
      rw [if_neg h2]
      by_cases hr : r.region ≠ ""
      · by_cases h5 : r.region ∈ rs <;> simp [hr, hc, h5]
      · simp [hr]
  · intro hc
    have h2 : ¬ (r.country ≠ "" ∧ lookupIdx iso r.country = none) := by
      rintro ⟨hne, -⟩; exact hne hc
    rw [if_neg h2]
    refine ⟨?_, fun hr => ?_, fun hr => ?_⟩
    · by_cases hr : r.region ≠ ""
      · rw [if_pos hr, if_neg (by simp [hc] : ¬ r.country ≠ "")]
        by_cases h5 : r.region ∈ allRegions iso <;> simp [h5]
      · simp [hr]
    · rw [if_pos hr, if_neg (by simp [hc] : ¬ r.country ≠ "")]
      by_cases h5 : r.region ∈ allRegions iso <;> simp [h5]
    · simp [hr]

theorem country_rule_witness :
    validate ⟨"192.0.2.0/24", "ZZ", "", "", ""⟩ [("US", ["CA"])] =
      VResult.err "Wrong country code" ∧
    validate ⟨"192.0.2.0/24", "", "CA", "", ""⟩ [("US", ["CA"])] = VResult.ok := by
  constructor
  · exact ((country_rule ⟨"192.0.2.0/24", "ZZ", "", "", ""⟩ [("US", ["CA"])]
      (by decide)).1 (by decide)).mpr (by decide)
  · exact (((country_rule ⟨"192.0.2.0/24", "", "CA", "", ""⟩ [("US", ["CA"])]
      (by decide)).2 rfl).2.1 (by decide)).mpr (by decide)

/-- Claim C4: with a valid prefix and a non-empty region, the region is
checked against the record's country's region set when the country is
non-empty and known, and against the union of all region sets when the
country is empty; mismatch gives "Wrong region code"; an empty region is
never checked by rule 3. -/
theorem region_rule (r : GeoRecord) (iso : RefIndex) (hip : ipNetworkOk r.pfx = true) :
    (r.region = "" → validate r iso ≠ VResult.err "Wrong region code") ∧
    (r.region ≠ "" →
      (∀ rs, r.country ≠ "" → lookupIdx iso r.country = some rs →
        (validate r iso = VResult.ok ↔ r.region ∈ rs) ∧
        (validate r iso = VResult.err "Wrong region code" ↔ r.region ∉ rs)) ∧
      (r.country = "" →
        (validate r iso = VResult.ok ↔ r.region ∈ allRegions iso) ∧
        (validate r iso = VResult.err "Wrong region code" ↔
          r.region ∉ allRegions iso))) := by
  unfold validate
  rw [hip]
  simp only [if_neg (by simp : ¬ (true = false))]
  constructor
  · intro hr
    by_cases h2 : r.country ≠ "" ∧ lookupIdx iso r.country = none <;> simp [h2, hr]
  · intro hr
    constructor
    · intro rs hc hl
      have h2 : ¬ (r.country ≠ "" ∧ lookupIdx iso r.country = none) := by
        rintro ⟨-, hn⟩; rw [hl] at hn; exact Option.noConfusion hn
      rw [if_neg h2, if_pos hr, if_pos hc, hl]
      by_cases h5 : r.region ∈ rs <;> simp [h5]
    · intro hc
      have h2 : ¬ (r.country ≠ "" ∧ lookupIdx iso r.country = none) := by
        rintro ⟨hne, -⟩; exact hne hc
      rw [if_neg h2, if_pos hr, if_neg (by simp [hc] : ¬ r.country ≠ "")]
      by_cases h5 : r.region ∈ allRegions iso <;> simp [h5]

theorem region_rule_witness :
    validate ⟨"192.0.2.0/24", "US", "TX", "", ""⟩ [("US", ["CA", "NY"])] =
      VResult.err "Wrong region code" ∧
    validate ⟨"192.0.2.0/24", "US", "CA", "", ""⟩ [("US", ["CA", "NY"])] = VResult.ok := by
  constructor
  · exact ((((region_rule ⟨"192.0.2.0/24", "US", "TX", "", ""⟩ [("US", ["CA", "NY"])]
      (by decide)).2 (by decide)).1 ["CA", "NY"] (by decide) (by decide)).2).mpr (by decide)
  · exact ((((region_rule ⟨"192.0.2.0/24", "US", "CA", "", ""⟩ [("US", ["CA", "NY"])]
      (by decide)).2 (by decide)).1 ["CA", "NY"] (by decide) (by decide)).1).mpr (by decide)

/-! ### Reader and loader lemmas -/

theorem exists_five (row : List String) (h : row.length = 5) :
    ∃ a b c d e, row = [a, b, c, d, e] := by
  rcases row with _ | ⟨a, row⟩
  · simp at h
  rcases row with _ | ⟨b, row⟩
  · simp at h
  rcases row with _ | ⟨c, row⟩
  · simp at h
  rcases row with _ | ⟨d, row⟩
  · simp at h
  rcases row with _ | ⟨e, row⟩
  · simp at h
  rcases row with _ | ⟨f, row⟩
  · exact ⟨a, b, c, d, e, rfl⟩
  · simp at h

/-- Claim C5: the reader yields one positionally-mapped `GeoRecord` per
5-field row; the first row of any other width aborts with a fatal message
holding that row's fields rejoined with commas, no record is yielded for it,
later rows are not processed, and records from earlier rows stand. -/
theorem reader_structure :
    (∀ p c reg ci z rest,
      read_geolocation_data ([p, c, reg, ci, z] :: rest) =
        ((⟨p, c, reg, ci, z⟩ : GeoRecord) :: (read_geolocation_data rest).1,
          (read_geolocation_data rest).2)) ∧
    (∀ rows : List (List String), (∀ row ∈ rows, row.length = 5) →
      (read_geolocation_data rows).2 = none) ∧
    (∀ good bad rest, (∀ row ∈ good, row.length = 5) → bad.length ≠ 5 →
      read_geolocation_data (good ++ bad :: rest) =
        ((read_geolocation_data good).1,
          some ("Malformatted record: " ++ String.intercalate "," bad))) := by
  have hbad : ∀ (bad : List String) (rest : List (List String)), bad.length ≠ 5 →
      read_geolocation_data (bad :: rest) =
        ([], some ("Malformatted record: " ++ String.intercalate "," bad)) := by
    intro bad rest hb
    rcases bad with _ | ⟨a, bad⟩
    · rfl
    rcases bad with _ | ⟨b, bad⟩
    · rfl
    rcases bad with _ | ⟨c, bad⟩
    · rfl
    rcases bad with _ | ⟨d, bad⟩
    · rfl
    rcases bad with _ | ⟨e, bad⟩
    · rfl
    rcases bad with _ | ⟨f, bad⟩
    · exact absurd rfl hb
    · rfl
  refine ⟨fun p c reg ci z rest => rfl, fun rows hall => ?_, fun good bad rest hg hb => ?_⟩
  · induction rows with
    | nil => rfl
    | cons row rest ih =>
      obtain ⟨a, b, c, d, e, rfl⟩ := exists_five row (hall row (List.mem_cons_self _ _))
      have hrest := ih (fun r hr => hall r (List.mem_cons_of_mem _ hr))
      simpa [read_geolocation_data] using hrest
  · induction good with
    | nil => simpa using hbad bad rest hb
    | cons row rows ih =>
      obtain ⟨a, b, c, d, e, rfl⟩ := exists_five row (hg row (List.mem_cons_self _ _))
      have ih' := ih (fun r hr => hg r (List.mem_cons_of_mem _ hr))
      simp [read_geolocation_data, ih']

theorem reader_structure_witness :
    read_geolocation_data
        [["p", "c", "r", "ci", "z"], ["a", "b"], ["q", "c", "r", "ci", "z"]] =
      ([⟨"p", "c", "r", "ci", "z"⟩], some "Malformatted record: a,b") := by
  have h := reader_structure.2.2 [["p", "c", "r", "ci", "z"]] ["a", "b"]
    [["q", "c", "r", "ci", "z"]] (by decide) (by decide)
  rw [show ([["p", "c", "r", "ci", "z"]] ++ ["a", "b"] :: [["q", "c", "r", "ci", "z"]]) =
    [["p", "c", "r", "ci", "z"], ["a", "b"], ["q", "c", "r", "ci", "z"]] from rfl] at h
  rw [h]
  decide

theorem mem_setAdd (s : List String) (x y : String) :
    y ∈ setAdd s x ↔ y = x ∨ y ∈ s := by
  unfold setAdd
  by_cases h : x ∈ s
  · simp only [if_pos h]
    constructor
    · exact Or.inr
    · rintro (rfl | hy)
      · exact h
      · exact hy
  · simp only [if_neg h, List.mem_append, List.mem_singleton]
    tauto

theorem lookup_setdefaultAdd (iso : RefIndex) (c reg c' : String) :
    lookupIdx (setdefaultAdd iso c reg) c' =
      if c' = c then some (setAdd ((lookupIdx iso c).getD []) reg)
      else lookupIdx iso c' := by
  induction iso with
  | nil =>
    by_cases h : c' = c
    · subst h; simp [setdefaultAdd, lookupIdx]
    · have h2 : ¬ c = c' := fun hh => h hh.symm
      simp [setdefaultAdd, lookupIdx, h, h2]
  | cons p rest ih =>
    obtain ⟨k, v⟩ := p
    by_cases hk : k = c
    · subst hk
      by_cases h : c' = k
      · subst h
        simp [setdefaultAdd, lookupIdx]
      · have h2 : ¬ k = c' := fun hh => h hh.symm
        simp [setdefaultAdd, lookupIdx, h, h2]
    · by_cases h : c' = k
      · subst h
        have h2 : ¬ c' = c := fun hh => hk (hh ▸ rfl)
        simp [setdefaultAdd, lookupIdx, hk, h2]
      · have h2 : ¬ k = c' := fun hh => h hh.symm
        simp [setdefaultAdd, lookupIdx, hk, h2, ih]

theorem memIdx_setdefaultAdd (iso : RefIndex) (c0 reg0 c reg : String) :
    memIdx (setdefaultAdd iso c0 reg0) c reg ↔
      (c = c0 ∧ reg = reg0) ∨ memIdx iso c reg := by
  unfold memIdx
  rw [lookup_setdefaultAdd]
  by_cases hc : c = c0
  · subst hc
    rcases hl : lookupIdx iso c with _ | v <;> simp [mem_setAdd]
  · simp [hc]

theorem isSome_lookup_setdefaultAdd (iso : RefIndex) (c0 reg0 c : String) :
    (lookupIdx (setdefaultAdd iso c0 reg0) c).isSome ↔
      c = c0 ∨ (lookupIdx iso c).isSome := by
  rw [lookup_setdefaultAdd]
  by_cases hc : c = c0 <;> simp [hc]

theorem readIsoRows_bad (rows : List (List String)) :
    ∀ acc, (∃ row ∈ rows, row.length < 3) → readIsoRows acc rows = none := by
  induction rows with
  | nil =>
    intro acc h
    obtain ⟨row, hrow, -⟩ := h
    exact absurd hrow (List.not_mem_nil row)
  | cons row rest ih =>
    intro acc h
    obtain ⟨row', hmem, hlen⟩ := h
    rcases List.mem_cons.mp hmem with rfl | hmem'
    · rcases row' with _ | ⟨a, _ | ⟨b, _ | ⟨c, t⟩⟩⟩
      · rfl
      · rfl
      · rfl
      · exfalso; simp at hlen; omega
    · rcases h0 : row[0]? with _ | v0
      · simp [readIsoRows, h0]
      rcases h2 : row[2]? with _ | v2
      · simp [readIsoRows, h0, h2]
      · simp only [readIsoRows, h0, h2]
        exact ih (setdefaultAdd acc v0 v2) ⟨row', hmem', hlen⟩

theorem readIsoRows_ok (rows : List (List String)) :
    ∀ acc, (∀ row ∈ rows, 3 ≤ row.length) →
      ∃ idx, readIsoRows acc rows = some idx ∧
        (∀ c reg, memIdx idx c reg ↔ memIdx acc c reg ∨
          ∃ row ∈ rows, row[0]? = some c ∧ row[2]? = some reg) ∧
        (∀ c, (lookupIdx idx c).isSome ↔ (lookupIdx acc c).isSome ∨
          ∃ row ∈ rows, row[0]? = some c) := by
  induction rows with
  | nil =>
    intro acc h
    exact ⟨acc, rfl, fun c reg => by simp, fun c => by simp⟩
  | cons row rest ih =>
    intro acc h
    have hlen := h row (List.mem_cons_self _ _)
    rcases h0 : row[0]? with _ | v0
    · exfalso
      have := List.getElem?_eq_none_iff.mp h0
      omega
    rcases h2 : row[2]? with _ | v2
    · exfalso
      have := List.getElem?_eq_none_iff.mp h2
      omega
    obtain ⟨idx, hidx, hmem, hkey⟩ :=
      ih (setdefaultAdd acc v0 v2) (fun r hr => h r (List.mem_cons_of_mem _ hr))
    refine ⟨idx, ?_, fun c reg => ?_, fun c => ?_⟩
    · simp only [readIsoRows, h0, h2]
      exact hidx
    · rw [hmem c reg, memIdx_setdefaultAdd]
      constructor
      · rintro ((⟨rfl, rfl⟩ | hacc) | ⟨row', hr, hg0, hg2⟩)
        · exact Or.inr ⟨row, List.mem_cons_self _ _, h0, h2⟩
        · exact Or.inl hacc
        · exact Or.inr ⟨row', List.mem_cons_of_mem _ hr, hg0, hg2⟩
      · rintro (hacc | ⟨row', hr, hg0, hg2⟩)
        · exact Or.inl (Or.inr hacc)
        · rcases List.mem_cons.mp hr with rfl | hr'
          · rw [h0] at hg0
            rw [h2] at hg2
            obtain rfl := Option.some.inj hg0
            obtain rfl := Option.some.inj hg2
            exact Or.inl (Or.inl ⟨rfl, rfl⟩)
          · exact Or.inr ⟨row', hr', hg0, hg2⟩
    · rw [hkey c, isSome_lookup_setdefaultAdd]
      constructor
      · rintro ((rfl | hacc) | ⟨row', hr, hg0⟩)
        · exact Or.inr ⟨row, List.mem_cons_self _ _, h0⟩
        · exact Or.inl hacc
        · exact Or.inr ⟨row', List.mem_cons_of_mem _ hr, hg0⟩
      · rintro (hacc | ⟨row', hr, hg0⟩)
        · exact Or.inl (Or.inr hacc)
        · rcases List.mem_cons.mp hr with rfl | hr'
          · rw [h0] at hg0
            obtain rfl := Option.some.inj hg0
            exact Or.inl (Or.inl rfl)
          · exact Or.inr ⟨row', hr', hg0⟩

/-- Claim C6: the loader maps each country code (column 0) to exactly the
region codes (column 2) paired with it in some row, ignoring extra columns;
any row with fewer than 3 columns makes the whole load fail with no partial
index. -/
theorem loader_index (rows : List (List String)) :
    ((∃ row ∈ rows, row.length < 3) → read_ip2location_data rows = none) ∧
    ((∀ row ∈ rows, 3 ≤ row.length) →
      ∃ idx, read_ip2location_data rows = some idx ∧
        (∀ c reg, memIdx idx c reg ↔
          ∃ row ∈ rows, row[0]? = some c ∧ row[2]? = some reg) ∧
        (∀ c, (lookupIdx idx c).isSome ↔ ∃ row ∈ rows, row[0]? = some c)) := by
  constructor
  · exact fun h => readIsoRows_bad rows [] h
  · intro h
    obtain ⟨idx, hidx, hmem, hkey⟩ := readIsoRows_ok rows [] h
    refine ⟨idx, hidx, fun c reg => ?_, fun c => ?_⟩
    · rw [hmem c reg]
      simp [memIdx, lookupIdx]
    · rw [hkey c]
      simp [lookupIdx]

theorem loader_index_witness :
    read_ip2location_data [["a", "b"]] = none ∧ memIdx [("US", ["CA"])] "US" "CA" := by
  constructor
  · exact (loader_index [["a", "b"]]).1 ⟨["a", "b"], List.mem_cons_self _ _, by decide⟩
  · obtain ⟨idx, hidx, hmem, -⟩ := (loader_index [["US", "x", "CA"]]).2 (by decide)
    have hv : read_ip2location_data [["US", "x", "CA"]] = some [("US", ["CA"])] := by decide
    rw [hv] at hidx
    have hidx' : [("US", ["CA"])] = idx := Option.some.inj hidx
    rw [hidx']
    exact (hmem "US" "CA").mpr ⟨["US", "x", "CA"], List.mem_cons_self _ _, rfl, rfl⟩

end Rfc8025
